import Mathlib

/-!
Shallow embedding of the cloth-simulation physics core (`src/code.py`).

Positions are modelled as real numbers (the mathematical idealization of the
Python floats), `math.sqrt` as `Real.sqrt`.  Python's mutable point objects
are modelled by a list of `PointMass` records; a constraint stores the index
of the "other" point in that list, so that mutation through a shared
reference becomes `List.set` at that index.  Loops become folds over the
same iteration ranges as the source.
-/

noncomputable section

/-- Constant `SCREEN_WIDTH = 640` from the source. -/
def SCREEN_WIDTH : ℝ := 640

/-- Constant `SCREEN_HEIGHT = 480` from the source. -/
def SCREEN_HEIGHT : ℝ := 480

/-- Constant `CURTAIN_WIDTH = 60` from the source (a lattice count). -/
def CURTAIN_WIDTH : ℕ := 60

/-- Constant `CURTAIN_HEIGHT = 40` from the source (a lattice count). -/
def CURTAIN_HEIGHT : ℕ := 40

/-- Constant `START_Y = 50` from the source. -/
def START_Y : ℝ := 50

/-- Constant `RESTING_DISTANCE = 10` from the source. -/
def RESTING_DISTANCE : ℝ := 10

/-- Constant `STIFFNESS = 0.5` from the source. -/
def STIFFNESS : ℝ := 0.5

/-- Constant `MOUSE_INFLUENCE_SIZE = 20` from the source. -/
def MOUSE_INFLUENCE_SIZE : ℝ := 20

/-- Constant `MOUSE_TEAR_SIZE = 8` from the source. -/
def MOUSE_TEAR_SIZE : ℝ := 8

/-- Constant `GRAVITY = 9.8` from the source. -/
def GRAVITY : ℝ := 9.8

/-- One entry of a point's `connections` list: the tuple
`(other, resting_distance, stiffness)` appended by `attach_to`, with the
Python object reference to `other` replaced by its index in the grid's
point list. -/
structure Connection where
  other : ℕ
  resting_distance : ℝ
  stiffness : ℝ

/-- The state of one `PointMass` object: current position, previous
position, the `fixed` flag and the list of outgoing connections. -/
structure PointMass where
  x : ℝ
  y : ℝ
  prev_x : ℝ
  prev_y : ℝ
  fixed : Bool
  connections : List Connection

/-- `PointMass.__init__(x, y, fixed)`: previous position starts equal to
the position and the connection list starts empty. -/
def PointMass.init (x y : ℝ) (fixed : Bool) : PointMass :=
  { x := x, y := y, prev_x := x, prev_y := y, fixed := fixed, connections := [] }

/-- `PointMass.update(dt)`: Verlet integration.  If the point is not fixed,
velocity is position minus previous position, the old position becomes the
new previous position, and the position advances by the velocity plus
`GRAVITY * dt * dt` on y. -/
def PointMass.update (dt : ℝ) (p : PointMass) : PointMass :=
  if p.fixed then p
  else
    let velocity_x := p.x - p.prev_x
    let velocity_y := p.y - p.prev_y
    { p with
      prev_x := p.x
      prev_y := p.y
      x := p.x + velocity_x
      y := p.y + velocity_y + GRAVITY * dt * dt }

/-- `PointMass.apply_constraint(width, height)`: clamp the position into the
screen rectangle, unconditionally (also for fixed points). -/
def PointMass.apply_constraint (width height : ℝ) (p : PointMass) : PointMass :=
  { p with
    x := max 0 (min width p.x)
    y := max 0 (min height p.y) }

/-- `PointMass.attach_to(other, resting_distance, stiffness)`: append one
connection to the point's list. -/
def PointMass.attach_to (p : PointMass) (other : ℕ) (resting_distance stiffness : ℝ) :
    PointMass :=
  { p with connections := p.connections ++ [⟨other, resting_distance, stiffness⟩] }

/-- The `other.x += …; other.y += …` step of `solve_constraints`: re-read
the point at index `k` from the current state (the Python reference is
live) and shift its position by `(d, e)` unless it is fixed. -/
def moveBy (s : List PointMass) (k : ℕ) (d e : ℝ) : List PointMass :=
  match s[k]? with
  | some q => if q.fixed then s else s.set k { q with x := q.x + d, y := q.y + e }
  | none => s

/-- One iteration of the loop body of `PointMass.solve_constraints`, acting
on the whole point list `s`: point `i` is `self`, `c` is the current
connection.  The displacement and distance are computed from the current
state; if the distance is zero the constraint is skipped; otherwise `self`
moves by `-correction * (dx, dy)` unless fixed, and then `other` moves by
`+correction * (dx, dy)` unless fixed. -/
def solveStep (i : ℕ) (s : List PointMass) (c : Connection) : List PointMass :=
  match s[i]?, s[c.other]? with
  | some p, some q =>
    let dx := q.x - p.x
    let dy := q.y - p.y
    let distance := Real.sqrt (dx ^ 2 + dy ^ 2)
    if distance = 0 then s
    else
      let error := (c.resting_distance - distance) / distance
      let correction := error * 0.5 * c.stiffness
      let s1 :=
        if p.fixed then s
        else s.set i { p with x := p.x - correction * dx, y := p.y - correction * dy }
      moveBy s1 c.other (correction * dx) (correction * dy)
  | _, _ => s

/-- `PointMass.solve_constraints()` for the point at index `i`: fold the
loop body over the point's connection list, threading the state, so that
corrections from earlier connections are visible to later ones. -/
def PointMass.solve_constraints (i : ℕ) (s : List PointMass) : List PointMass :=
  match s[i]? with
  | some p => p.connections.foldl (solveStep i) s
  | none => s

/-- The body of the inner loop of `Curtain.create_points` at row `y` and
column `x`: build the point at
`(x * resting_distance, start_y + y * resting_distance)`, fixed on row 0,
attach it to `points[-2]` (index `len-1` before the append) when `x > 0`
and to `points[-(width+2)]` (index `len-(width+1)` before the append) when
`y > 0`, then append it. -/
def createBody (width : ℕ) (start_y resting_distance : ℝ) (y : ℕ)
    (pts : List PointMass) (x : ℕ) : List PointMass :=
  let pos_x : ℝ := (x : ℝ) * resting_distance
  let pos_y : ℝ := start_y + (y : ℝ) * resting_distance
  let point := PointMass.init pos_x pos_y (y == 0)
  let point := if 0 < x then point.attach_to (pts.length - 1) resting_distance STIFFNESS
               else point
  let point := if 0 < y then
                 point.attach_to (pts.length - (width + 1)) resting_distance STIFFNESS
               else point
  pts ++ [point]

/-- `Curtain.create_points(start_y)`: the nested loops over
`range(height+1)` and `range(width+1)`. -/
def Curtain.create_points (width height : ℕ) (start_y resting_distance : ℝ) :
    List PointMass :=
  (List.range (height + 1)).foldl (fun pts y =>
    (List.range (width + 1)).foldl (createBody width start_y resting_distance y) pts) []

/-- The point that `create_points` builds at `(row, col)` when the list has
`n` points so far: position `(col * restingDistance, startY + row *
restingDistance)`, fixed exactly on row 0, a constraint to the left
neighbour (index `n-1`) when `col > 0` followed by a constraint to the top
neighbour (index `n-(width+1)`) when `row > 0`, both with the resting
distance and the global `STIFFNESS`. -/
def gridPoint (width : ℕ) (start_y resting_distance : ℝ) (row col n : ℕ) : PointMass :=
  { x := (col : ℝ) * resting_distance
    y := start_y + (row : ℝ) * resting_distance
    prev_x := (col : ℝ) * resting_distance
    prev_y := start_y + (row : ℝ) * resting_distance
    fixed := row == 0
    connections :=
      (if 0 < col then [⟨n - 1, resting_distance, STIFFNESS⟩] else []) ++
      (if 0 < row then [⟨n - (width + 1), resting_distance, STIFFNESS⟩] else []) }

/-- The first `m` rows of the grid in row-major order, each point carrying
its row-major index `row * (width+1) + col`. -/
def gridRows (width : ℕ) (start_y resting_distance : ℝ) (m : ℕ) : List PointMass :=
  (List.range m).flatMap (fun y => (List.range (width + 1)).map
    (fun x => gridPoint width start_y resting_distance y x (y * (width + 1) + x)))

/-- `Curtain.update(dt)`: integrate every point, then run the
constraint-solving loop 5 times, each time calling `solve_constraints` on
every point in list order. -/
def Curtain.update (dt : ℝ) (pts : List PointMass) : List PointMass :=
  let pts := pts.map (PointMass.update dt)
  (List.range 5).foldl (fun pts _ =>
    (List.range pts.length).foldl (fun pts i => PointMass.solve_constraints i pts) pts) pts

/-- `Curtain.apply_constraints(screen_width, screen_height)`: clamp every
point. -/
def Curtain.apply_constraints (screen_width screen_height : ℝ)
    (pts : List PointMass) : List PointMass :=
  pts.map (PointMass.apply_constraint screen_width screen_height)

/-- The loop body of `Curtain.interact_with_mouse` for one point: the
squared distance to the mouse is computed once; if the left button is down
and the point is inside the influence radius it snaps to the mouse unless
fixed; then, with the same squared distance, if the right button is down
and the point is inside the tear radius its connection list is cleared. -/
def interactPoint (mouse_x mouse_y : ℝ) (left_click right_click : Bool)
    (p : PointMass) : PointMass :=
  let dx := p.x - mouse_x
  let dy := p.y - mouse_y
  let distance := dx ^ 2 + dy ^ 2
  let p1 :=
    if left_click = true ∧ distance < MOUSE_INFLUENCE_SIZE ^ 2 then
      (if p.fixed then p else { p with x := mouse_x, y := mouse_y })
    else p
  if right_click = true ∧ distance < MOUSE_TEAR_SIZE ^ 2 then
    { p1 with connections := [] }
  else p1

/-- `Curtain.interact_with_mouse(mouse_pos, left_click, right_click)`: the
loop body reads and writes only the current point, so the loop is a map. -/
def Curtain.interact_with_mouse (mouse_x mouse_y : ℝ) (left_click right_click : Bool)
    (pts : List PointMass) : List PointMass :=
  pts.map (interactPoint mouse_x mouse_y left_click right_click)

/-- Euclidean distance between two points' positions, as computed by
`solve_constraints`. -/
def ptDist (p q : PointMass) : ℝ :=
  Real.sqrt ((q.x - p.x) ^ 2 + (q.y - p.y) ^ 2)

/-- Spec-side phrasing of step 1 of `Curtain.update`: integrate every point
exactly once. -/
def integrateAll (dt : ℝ) (pts : List PointMass) : List PointMass :=
  pts.map (PointMass.update dt)

/-- Spec-side phrasing of one relaxation pass: call `solve_constraints` on
every point in row-major (list) order. -/
def solvePass (pts : List PointMass) : List PointMass :=
  (List.range pts.length).foldl (fun pts i => PointMass.solve_constraints i pts) pts

end

/-! ## Helper lemmas -/

lemma moveBy_preserves_fixed {s : List PointMass} {j : ℕ} {p : PointMass}
    (hj : s[j]? = some p) (hf : p.fixed = true) (k : ℕ) (d e : ℝ) :
    (moveBy s k d e)[j]? = some p := by
  unfold moveBy
  split
  next q hk =>
    by_cases hq : q.fixed = true
    · simp only [if_pos hq]; exact hj
    · simp only [if_neg hq]
      rcases eq_or_ne k j with rfl | hne
      · rw [hk] at hj
        injection hj with e1
        rw [e1] at hq
        exact absurd hf hq
      · rw [List.getElem?_set_ne hne]; exact hj
  next hk => exact hj

lemma solveStep_preserves_fixed {s : List PointMass} {j : ℕ} {p : PointMass}
    (hj : s[j]? = some p) (hf : p.fixed = true) (i : ℕ) (c : Connection) :
    (solveStep i s c)[j]? = some p := by
  unfold solveStep
  split
  next pi q hi ho =>
    dsimp only
    split
    · exact hj
    · apply moveBy_preserves_fixed _ hf
      by_cases hpf : pi.fixed = true
      · simp only [if_pos hpf]; exact hj
      · simp only [if_neg hpf]
        rcases eq_or_ne i j with rfl | hne
        · rw [hi] at hj
          injection hj with e1
          rw [e1] at hpf
          exact absurd hf hpf
        · rw [List.getElem?_set_ne hne]; exact hj
  next => exact hj

lemma update_not_fixed (dt : ℝ) (p : PointMass) (h : p.fixed = false) :
    PointMass.update dt p =
      { x := p.x + (p.x - p.prev_x)
        y := p.y + (p.y - p.prev_y) + GRAVITY * dt * dt
        prev_x := p.x
        prev_y := p.y
        fixed := p.fixed
        connections := p.connections } := by
  simp [PointMass.update, h]

lemma interactPoint_eq (mx my : ℝ) (lc rc : Bool) (p : PointMass) :
    interactPoint mx my lc rc p =
      { x := if (lc = true ∧ (p.x - mx) ^ 2 + (p.y - my) ^ 2 < MOUSE_INFLUENCE_SIZE ^ 2) ∧
               p.fixed = false then mx else p.x
        y := if (lc = true ∧ (p.x - mx) ^ 2 + (p.y - my) ^ 2 < MOUSE_INFLUENCE_SIZE ^ 2) ∧
               p.fixed = false then my else p.y
        prev_x := p.prev_x
        prev_y := p.prev_y
        fixed := p.fixed
        connections := if rc = true ∧ (p.x - mx) ^ 2 + (p.y - my) ^ 2 < MOUSE_TEAR_SIZE ^ 2
                       then [] else p.connections } := by
  obtain ⟨px, py, ppx, ppy, pf, pc⟩ := p
  unfold interactPoint
  cases pf <;>
    by_cases h1 : lc = true ∧ (px - mx) ^ 2 + (py - my) ^ 2 < MOUSE_INFLUENCE_SIZE ^ 2 <;>
      by_cases h2 : rc = true ∧ (px - mx) ^ 2 + (py - my) ^ 2 < MOUSE_TEAR_SIZE ^ 2 <;>
        simp [h1, h2]

lemma foldl_range_const {α : Type} (g : α → α) :
    ∀ (n : ℕ) (a : α), (List.range n).foldl (fun x _ => g x) a = g^[n] a := by
  intro n
  induction n with
  | zero => intro a; rfl
  | succ m ih =>
    intro a
    rw [List.range_succ, List.foldl_append, Function.iterate_succ_apply']
    simp only [List.foldl_cons, List.foldl_nil, ih]

lemma foldl_solveStep_preserves_fixed {j : ℕ} {p : PointMass} (hf : p.fixed = true)
    (i : ℕ) (l : List Connection) :
    ∀ s : List PointMass, s[j]? = some p → (l.foldl (solveStep i) s)[j]? = some p := by
  induction l with
  | nil => intro s hj; exact hj
  | cons c cs ih => intro s hj; exact ih _ (solveStep_preserves_fixed hj hf i c)

lemma moveBy_eq {s : List PointMass} {k : ℕ} {q : PointMass} (hk : s[k]? = some q)
    (d e : ℝ) :
    moveBy s k d e =
      if q.fixed = true then s else s.set k { q with x := q.x + d, y := q.y + e } := by
  simp [moveBy, hk]

lemma solveStep_eq {s : List PointMass} {i : ℕ} {c : Connection} {p q : PointMass}
    (hi : s[i]? = some p) (ho : s[c.other]? = some q) :
    solveStep i s c =
      if Real.sqrt ((q.x - p.x) ^ 2 + (q.y - p.y) ^ 2) = 0 then s
      else
        moveBy
          (if p.fixed = true then s
           else s.set i
             { p with
               x := p.x -
                 (c.resting_distance - Real.sqrt ((q.x - p.x) ^ 2 + (q.y - p.y) ^ 2)) /
                   Real.sqrt ((q.x - p.x) ^ 2 + (q.y - p.y) ^ 2) * 0.5 * c.stiffness *
                   (q.x - p.x)
               y := p.y -
                 (c.resting_distance - Real.sqrt ((q.x - p.x) ^ 2 + (q.y - p.y) ^ 2)) /
                   Real.sqrt ((q.x - p.x) ^ 2 + (q.y - p.y) ^ 2) * 0.5 * c.stiffness *
                   (q.y - p.y) })
          c.other
          ((c.resting_distance - Real.sqrt ((q.x - p.x) ^ 2 + (q.y - p.y) ^ 2)) /
            Real.sqrt ((q.x - p.x) ^ 2 + (q.y - p.y) ^ 2) * 0.5 * c.stiffness *
            (q.x - p.x))
          ((c.resting_distance - Real.sqrt ((q.x - p.x) ^ 2 + (q.y - p.y) ^ 2)) /
            Real.sqrt ((q.x - p.x) ^ 2 + (q.y - p.y) ^ 2) * 0.5 * c.stiffness *
            (q.y - p.y)) := by
  simp [solveStep, hi, ho]

lemma getElem?_lt_length {s : List PointMass} {k : ℕ} {q : PointMass}
    (hk : s[k]? = some q) : k < s.length :=
  (List.getElem?_eq_some_iff.mp hk).1

/-! ## Claims -/

/-- Claim C1: for every fixed point, `PointMass.update` leaves the point
unchanged, and `PointMass.solve_constraints` (called on any point of any
state containing the fixed point) leaves the fixed point's entry — in
particular its position — unchanged. -/
theorem C1_fixed_point_invariance (dt : ℝ) (p : PointMass) (h : p.fixed = true) :
    PointMass.update dt p = p ∧
    ∀ (s : List PointMass) (i j : ℕ), s[j]? = some p →
      (PointMass.solve_constraints i s)[j]? = some p := by
  constructor
  · simp [PointMass.update, h]
  · intro s i j hj
    unfold PointMass.solve_constraints
    split
    next q hi => exact foldl_solveStep_preserves_fixed h i q.connections s hj
    next => exact hj

/-- Witness for C1 at a concrete fixed point. -/
theorem C1_fixed_point_invariance_witness :
    (⟨1, 2, 3, 4, true, []⟩ : PointMass).fixed = true ∧
    PointMass.update 1 ⟨1, 2, 3, 4, true, []⟩ = ⟨1, 2, 3, 4, true, []⟩ ∧
    (PointMass.solve_constraints 0 [⟨1, 2, 3, 4, true, []⟩])[0]? =
      some ⟨1, 2, 3, 4, true, []⟩ := by
  have h := C1_fixed_point_invariance 1 ⟨1, 2, 3, 4, true, []⟩ rfl
  exact ⟨rfl, h.1, h.2 [⟨1, 2, 3, 4, true, []⟩] 0 0 rfl⟩

/-- Claim C2: for every non-fixed point, `PointMass.update dt` computes the
velocity as position minus previous position, stores the old position as
the new previous position, and advances the position by the velocity plus
`(0, GRAVITY * dt * dt)`; starting from zero velocity, one update with
`dt = 0.1` (and `GRAVITY = 9.8`) increases y by exactly `0.098` and leaves
x unchanged. -/
theorem C2_verlet_integration (dt : ℝ) (p : PointMass) (h : p.fixed = false) :
    PointMass.update dt p =
      { x := p.x + (p.x - p.prev_x)
        y := p.y + (p.y - p.prev_y) + GRAVITY * dt * dt
        prev_x := p.x
        prev_y := p.y
        fixed := p.fixed
        connections := p.connections } ∧
    (p.prev_x = p.x → p.prev_y = p.y →
      (PointMass.update (0.1 : ℝ) p).x = p.x ∧
      (PointMass.update (0.1 : ℝ) p).y = p.y + 0.098) := by
  have hup : ∀ t : ℝ, PointMass.update t p =
      { x := p.x + (p.x - p.prev_x)
        y := p.y + (p.y - p.prev_y) + GRAVITY * t * t
        prev_x := p.x
        prev_y := p.y
        fixed := p.fixed
        connections := p.connections } := by
    intro t
    simp [PointMass.update, h]
  refine ⟨hup dt, fun hx hy => ?_⟩
  rw [hup (0.1 : ℝ)]
  constructor
  · simp [hx]
  · rw [hy]
    simp only [GRAVITY]
    ring_nf

/-- Witness for C2 at a concrete non-fixed point at rest. -/
theorem C2_verlet_integration_witness :
    (⟨5, 7, 5, 7, false, []⟩ : PointMass).fixed = false ∧
    (PointMass.update (0.1 : ℝ) ⟨5, 7, 5, 7, false, []⟩).x = 5 ∧
    (PointMass.update (0.1 : ℝ) ⟨5, 7, 5, 7, false, []⟩).y = 7 + 0.098 := by
  have h := (C2_verlet_integration (0.1 : ℝ) ⟨5, 7, 5, 7, false, []⟩ rfl).2 rfl rfl
  exact ⟨rfl, h.1, h.2⟩

/-- Claim C5: `Curtain.update dt` first integrates every point exactly once
and then performs exactly 5 relaxation passes, each pass calling
`solve_constraints` on every point in row-major (list) order. -/
theorem C5_update_pipeline (dt : ℝ) (pts : List PointMass) :
    Curtain.update dt pts = solvePass^[5] (integrateAll dt pts) := by
  unfold Curtain.update integrateAll solvePass
  exact foldl_range_const _ 5 _

/-- Claim C6: `PointMass.apply_constraint` sets x to the clamp of x into
`[0, width]` and y to the clamp of y into `[0, height]`, unconditionally —
the previous position, the fixed flag and the connections are untouched,
with no exception for fixed points. -/
theorem C6_clamp_to_bounds (width height : ℝ) (p : PointMass) :
    PointMass.apply_constraint width height p =
      { x := max 0 (min width p.x)
        y := max 0 (min height p.y)
        prev_x := p.prev_x
        prev_y := p.prev_y
        fixed := p.fixed
        connections := p.connections } ∧
    (0 ≤ width → (PointMass.apply_constraint width height p).x ∈ Set.Icc (0 : ℝ) width) ∧
    (0 ≤ height → (PointMass.apply_constraint width height p).y ∈ Set.Icc (0 : ℝ) height) := by
  refine ⟨rfl, fun hw => ⟨le_max_left _ _, max_le hw (min_le_left _ _)⟩,
    fun hh => ⟨le_max_left _ _, max_le hh (min_le_left _ _)⟩⟩

/-- Witness for C6 at a concrete (fixed) point outside the bounds. -/
theorem C6_clamp_to_bounds_witness :
    (0 : ℝ) ≤ 640 ∧ (0 : ℝ) ≤ 480 ∧
    (PointMass.apply_constraint 640 480 ⟨-5, 500, 1, 2, true, []⟩).x ∈ Set.Icc (0 : ℝ) 640 ∧
    (PointMass.apply_constraint 640 480 ⟨-5, 500, 1, 2, true, []⟩).y ∈ Set.Icc (0 : ℝ) 480 := by
  have h := C6_clamp_to_bounds 640 480 ⟨-5, 500, 1, 2, true, []⟩
  exact ⟨by norm_num, by norm_num, h.2.1 (by norm_num), h.2.2 (by norm_num)⟩

/-- Claim C7: in the per-point body of `interact_with_mouse`, a left click
inside the influence radius snaps a non-fixed point's position to the mouse
(a fixed point's position is untouched), a right click inside the tear
radius clears the connection list regardless of the fixed flag, and the
tear check runs after the drag check in the same call, so a point inside
both radii with both buttons down ends at the mouse with no connections;
the loop treats every point independently (a map over the list). -/
theorem C7_mouse_interaction (mx my : ℝ) (lc rc : Bool) (p : PointMass) :
    ((lc = true ∧ (p.x - mx) ^ 2 + (p.y - my) ^ 2 < MOUSE_INFLUENCE_SIZE ^ 2) →
      p.fixed = false →
      (interactPoint mx my lc rc p).x = mx ∧ (interactPoint mx my lc rc p).y = my) ∧
    (p.fixed = true →
      (interactPoint mx my lc rc p).x = p.x ∧ (interactPoint mx my lc rc p).y = p.y) ∧
    ((rc = true ∧ (p.x - mx) ^ 2 + (p.y - my) ^ 2 < MOUSE_TEAR_SIZE ^ 2) →
      (interactPoint mx my lc rc p).connections = []) ∧
    ((lc = true ∧ (p.x - mx) ^ 2 + (p.y - my) ^ 2 < MOUSE_INFLUENCE_SIZE ^ 2) →
      (rc = true ∧ (p.x - mx) ^ 2 + (p.y - my) ^ 2 < MOUSE_TEAR_SIZE ^ 2) →
      p.fixed = false →
      interactPoint mx my lc rc p =
        { x := mx, y := my, prev_x := p.prev_x, prev_y := p.prev_y,
          fixed := p.fixed, connections := [] }) ∧
    (∀ pts : List PointMass,
      Curtain.interact_with_mouse mx my lc rc pts =
        pts.map (interactPoint mx my lc rc)) := by
  rw [interactPoint_eq]
  refine ⟨fun h1 hf => ?_, fun hf => ?_, fun h2 => ?_, fun h1 h2 hf => ?_, fun pts => rfl⟩
  · simp [h1, hf]
  · simp [hf]
  · simp [h2]
  · simp [h1, h2, hf]

/-- Witness for C7: a non-fixed point inside both radii with both buttons
down is snapped to the mouse and torn in the same call. -/
theorem C7_mouse_interaction_witness :
    ((true = true ∧ ((0 : ℝ) - 1) ^ 2 + ((0 : ℝ) - 1) ^ 2 < MOUSE_INFLUENCE_SIZE ^ 2) ∧
     (true = true ∧ ((0 : ℝ) - 1) ^ 2 + ((0 : ℝ) - 1) ^ 2 < MOUSE_TEAR_SIZE ^ 2)) ∧
    interactPoint 1 1 true true ⟨0, 0, 0, 0, false, [⟨1, 10, 0.5⟩]⟩ =
      { x := 1, y := 1, prev_x := 0, prev_y := 0, fixed := false, connections := [] } := by
  have h1 : (true = true ∧ ((0 : ℝ) - 1) ^ 2 + ((0 : ℝ) - 1) ^ 2 < MOUSE_INFLUENCE_SIZE ^ 2) :=
    ⟨rfl, by norm_num [MOUSE_INFLUENCE_SIZE]⟩
  have h2 : (true = true ∧ ((0 : ℝ) - 1) ^ 2 + ((0 : ℝ) - 1) ^ 2 < MOUSE_TEAR_SIZE ^ 2) :=
    ⟨rfl, by norm_num [MOUSE_TEAR_SIZE]⟩
  have h := (C7_mouse_interaction 1 1 true true ⟨0, 0, 0, 0, false, [⟨1, 10, 0.5⟩]⟩).2.2.2.1
  exact ⟨⟨h1, h2⟩, h h1 h2 rfl⟩

/-- Claim C10: dragging sets only the current position and leaves the
previous position unchanged, so the next `update` on the dragged non-fixed
point advances it by the full displacement from the pre-drag previous
position to the mouse. -/
theorem C10_drag_imparts_velocity (mx my dt : ℝ) (rc : Bool) (p : PointMass)
    (hf : p.fixed = false)
    (hd : (p.x - mx) ^ 2 + (p.y - my) ^ 2 < MOUSE_INFLUENCE_SIZE ^ 2) :
    (interactPoint mx my true rc p).x = mx ∧
    (interactPoint mx my true rc p).y = my ∧
    (interactPoint mx my true rc p).prev_x = p.prev_x ∧
    (interactPoint mx my true rc p).prev_y = p.prev_y ∧
    (PointMass.update dt (interactPoint mx my true rc p)).x = mx + (mx - p.prev_x) ∧
    (PointMass.update dt (interactPoint mx my true rc p)).y =
      my + (my - p.prev_y) + GRAVITY * dt * dt := by
  have hP : interactPoint mx my true rc p =
      { x := mx, y := my, prev_x := p.prev_x, prev_y := p.prev_y,
        fixed := p.fixed,
        connections := if rc = true ∧ (p.x - mx) ^ 2 + (p.y - my) ^ 2 < MOUSE_TEAR_SIZE ^ 2
                       then [] else p.connections } := by
    rw [interactPoint_eq]
    simp [hd, hf]
  have hfix : (interactPoint mx my true rc p).fixed = false := by rw [hP]; exact hf
  have h5 := update_not_fixed dt _ hfix
  rw [hP] at h5 ⊢
  rw [h5]
  exact ⟨rfl, rfl, rfl, rfl, rfl, rfl⟩

/-- Witness for C10: a resting point at (3,4) dragged to (5,5) and then
integrated ends at (7,6) plus the gravity term. -/
theorem C10_drag_imparts_velocity_witness :
    ((3 : ℝ) - 5) ^ 2 + ((4 : ℝ) - 5) ^ 2 < MOUSE_INFLUENCE_SIZE ^ 2 ∧
    (interactPoint 5 5 true false ⟨3, 4, 3, 4, false, []⟩).prev_x = 3 ∧
    (PointMass.update 1 (interactPoint 5 5 true false ⟨3, 4, 3, 4, false, []⟩)).x =
      5 + (5 - 3) ∧
    (PointMass.update 1 (interactPoint 5 5 true false ⟨3, 4, 3, 4, false, []⟩)).y =
      5 + (5 - 4) + GRAVITY * 1 * 1 := by
  have hd : ((3 : ℝ) - 5) ^ 2 + ((4 : ℝ) - 5) ^ 2 < MOUSE_INFLUENCE_SIZE ^ 2 := by
    norm_num [MOUSE_INFLUENCE_SIZE]
  have h := C10_drag_imparts_velocity 5 5 1 false ⟨3, 4, 3, 4, false, []⟩ rfl hd
  exact ⟨hd, h.2.2.1, h.2.2.2.2.1, h.2.2.2.2.2⟩

/-- Claim C3: resolving one constraint with `p` at index `i` (self) and `q`
at index `c.other` (other): if the distance is exactly zero the constraint
is skipped with no state change; otherwise, with
`correction = (restingDistance - distance) / distance * 0.5 * stiffness`,
self moves by `-correction * (dx, dy)` unless fixed, other moves by
`+correction * (dx, dy)` unless fixed, and no other point changes.
`solve_constraints` folds the steps over the owning point's constraint
list threading the state, so corrections from earlier constraints are
visible to later ones in the same pass. -/
theorem C3_constraint_resolution (i : ℕ) (c : Connection) (s : List PointMass)
    (p q : PointMass) (hi : s[i]? = some p) (ho : s[c.other]? = some q) :
    (∀ D : ℝ, D = Real.sqrt ((q.x - p.x) ^ 2 + (q.y - p.y) ^ 2) →
      (D = 0 → solveStep i s c = s) ∧
      (D ≠ 0 → ∀ corr : ℝ,
        corr = (c.resting_distance - D) / D * 0.5 * c.stiffness →
        (solveStep i s c)[i]? =
          some (if p.fixed = true then p
                else { p with x := p.x - corr * (q.x - p.x),
                               y := p.y - corr * (q.y - p.y) }) ∧
        (solveStep i s c)[c.other]? =
          some (if q.fixed = true then q
                else { q with x := q.x + corr * (q.x - p.x),
                               y := q.y + corr * (q.y - p.y) }) ∧
        ∀ j, j ≠ i → j ≠ c.other → (solveStep i s c)[j]? = s[j]?)) ∧
    PointMass.solve_constraints i s = p.connections.foldl (solveStep i) s := by
  constructor
  · rintro D rfl
    refine ⟨fun hD => ?_, fun hD corr hcorr => ?_⟩
    · rw [solveStep_eq hi ho, if_pos hD]
    · have hne : i ≠ c.other := by
        rintro rfl
        rw [hi] at ho
        injection ho with e
        subst e
        apply hD
        simp
      subst hcorr
      rw [solveStep_eq hi ho, if_neg hD]
      by_cases hpf : p.fixed = true
      · rw [if_pos hpf]
        rw [moveBy_eq ho]
        by_cases hqf : q.fixed = true
        · rw [if_pos hqf]
          refine ⟨?_, ?_, fun j hji hjo => rfl⟩
          · rw [hi, if_pos hpf]
          · rw [ho, if_pos hqf]
        · rw [if_neg hqf]
          refine ⟨?_, ?_, fun j hji hjo => ?_⟩
          · rw [List.getElem?_set_ne (Ne.symm hne), hi, if_pos hpf]
          · rw [List.getElem?_set_self (getElem?_lt_length ho), if_neg hqf]
          · rw [List.getElem?_set_ne (Ne.symm hjo)]
      · rw [if_neg hpf]
        have hq1 : ∀ a : PointMass, (s.set i a)[c.other]? = some q := fun a => by
          rw [List.getElem?_set_ne hne]; exact ho
        rw [moveBy_eq (hq1 _)]
        by_cases hqf : q.fixed = true
        · rw [if_pos hqf]
          refine ⟨?_, ?_, fun j hji hjo => ?_⟩
          · rw [List.getElem?_set_self (getElem?_lt_length hi), if_neg hpf]
          · rw [hq1 _, if_pos hqf]
          · rw [List.getElem?_set_ne (Ne.symm hji)]
        · rw [if_neg hqf]
          refine ⟨?_, ?_, fun j hji hjo => ?_⟩
          · rw [List.getElem?_set_ne (Ne.symm hne),
              List.getElem?_set_self (getElem?_lt_length hi), if_neg hpf]
          · rw [List.getElem?_set_self
              (by rw [List.length_set]; exact getElem?_lt_length ho), if_neg hqf]
          · rw [List.getElem?_set_ne (Ne.symm hjo), List.getElem?_set_ne (Ne.symm hji)]
  · unfold PointMass.solve_constraints
    rw [hi]

/-- Witness for C3: two free points at distance 2 with resting distance 4
and stiffness 1; self moves down by 1 and other up by 1. -/
theorem C3_constraint_resolution_witness :
    (([⟨0, 0, 0, 0, false, [⟨1, 4, 1⟩]⟩, ⟨0, 2, 0, 2, false, []⟩] :
        List PointMass)[0]? = some ⟨0, 0, 0, 0, false, [⟨1, 4, 1⟩]⟩) ∧
    (solveStep 0 [⟨0, 0, 0, 0, false, [⟨1, 4, 1⟩]⟩, ⟨0, 2, 0, 2, false, []⟩]
        ⟨1, 4, 1⟩)[0]? = some ⟨0, -1, 0, 0, false, [⟨1, 4, 1⟩]⟩ ∧
    (solveStep 0 [⟨0, 0, 0, 0, false, [⟨1, 4, 1⟩]⟩, ⟨0, 2, 0, 2, false, []⟩]
        ⟨1, 4, 1⟩)[1]? = some ⟨0, 3, 0, 2, false, []⟩ := by
  have hs : Real.sqrt (((0 : ℝ) - 0) ^ 2 + ((2 : ℝ) - 0) ^ 2) = 2 := by
    rw [show ((0 : ℝ) - 0) ^ 2 + ((2 : ℝ) - 0) ^ 2 = 2 ^ 2 by norm_num]
    exact Real.sqrt_sq (by norm_num)
  have h := (C3_constraint_resolution 0 ⟨1, 4, 1⟩
    [⟨0, 0, 0, 0, false, [⟨1, 4, 1⟩]⟩, ⟨0, 2, 0, 2, false, []⟩]
    ⟨0, 0, 0, 0, false, [⟨1, 4, 1⟩]⟩ ⟨0, 2, 0, 2, false, []⟩ rfl rfl).1 _ rfl
  dsimp only at h
  have h3 := h.2 (by rw [hs]; norm_num) _ rfl
  rw [hs] at h3
  norm_num at h3
  exact ⟨rfl, h3.1, h3.2.1⟩

lemma relax_core (dx dy r k corr : ℝ) (hr : 0 < r) (hk0 : 0 < k) (hk1 : k ≤ 1)
    (hD0 : Real.sqrt (dx ^ 2 + dy ^ 2) ≠ 0) (hDr : Real.sqrt (dx ^ 2 + dy ^ 2) ≠ r)
    (hcorr : corr = (r - Real.sqrt (dx ^ 2 + dy ^ 2)) / Real.sqrt (dx ^ 2 + dy ^ 2) *
      0.5 * k) :
    |Real.sqrt (((1 + 2 * corr) * dx) ^ 2 + ((1 + 2 * corr) * dy) ^ 2) - r| =
      (1 - k) * |Real.sqrt (dx ^ 2 + dy ^ 2) - r| ∧
    |Real.sqrt (((1 + 2 * corr) * dx) ^ 2 + ((1 + 2 * corr) * dy) ^ 2) - r| <
      |Real.sqrt (dx ^ 2 + dy ^ 2) - r| := by
  have hDpos : 0 < Real.sqrt (dx ^ 2 + dy ^ 2) :=
    (Real.sqrt_nonneg _).lt_of_ne (Ne.symm hD0)
  set D := Real.sqrt (dx ^ 2 + dy ^ 2) with hD
  have hA : 1 + 2 * corr = ((1 - k) * D + k * r) / D := by
    rw [hcorr]
    field_simp
    ring
  have hnum : 0 < (1 - k) * D + k * r := by
    have h1 : 0 ≤ (1 - k) * D := mul_nonneg (by linarith) hDpos.le
    have h2 : 0 < k * r := mul_pos hk0 hr
    linarith
  have hApos : 0 < 1 + 2 * corr := by
    rw [hA]; exact div_pos hnum hDpos
  have hsq : Real.sqrt (((1 + 2 * corr) * dx) ^ 2 + ((1 + 2 * corr) * dy) ^ 2) =
      (1 + 2 * corr) * D := by
    rw [show ((1 + 2 * corr) * dx) ^ 2 + ((1 + 2 * corr) * dy) ^ 2 =
          (1 + 2 * corr) ^ 2 * (dx ^ 2 + dy ^ 2) from by ring,
        Real.sqrt_mul (sq_nonneg _), Real.sqrt_sq_eq_abs, abs_of_pos hApos, hD]
  have hAD : (1 + 2 * corr) * D = (1 - k) * D + k * r := by
    rw [hA]
    field_simp
  rw [hsq, hAD, show (1 - k) * D + k * r - r = (1 - k) * (D - r) from by ring,
    abs_mul, abs_of_nonneg (by linarith : (0 : ℝ) ≤ 1 - k)]
  have habs : 0 < |D - r| := abs_pos.mpr (sub_ne_zero.mpr hDr)
  exact ⟨rfl, mul_lt_of_lt_one_left habs (by linarith)⟩

/-- Claim C9: for a single constraint between two free points whose
distance is non-zero and differs from the resting distance, with stiffness
in (0,1] and positive resting distance, one relaxation pass (one
`solve_constraints` call on the owning point) scales the distance error by
`(1 - k)` — in particular it strictly decreases `|distance - rest|` and
never increases it. -/
theorem C9_relaxation_convergence (p q : PointMass) (r k : ℝ)
    (hpf : p.fixed = false) (hqf : q.fixed = false)
    (hpc : p.connections = [⟨1, r, k⟩])
    (hr : 0 < r) (hk0 : 0 < k) (hk1 : k ≤ 1)
    (hD0 : ptDist p q ≠ 0) (hDr : ptDist p q ≠ r) :
    ∃ p' q',
      (PointMass.solve_constraints 0 [p, q])[0]? = some p' ∧
      (PointMass.solve_constraints 0 [p, q])[1]? = some q' ∧
      |ptDist p' q' - r| = (1 - k) * |ptDist p q - r| ∧
      |ptDist p' q' - r| < |ptDist p q - r| := by
  have hi : ([p, q] : List PointMass)[0]? = some p := rfl
  have ho : ([p, q] : List PointMass)[(⟨1, r, k⟩ : Connection).other]? = some q := rfl
  have hD0' : Real.sqrt ((q.x - p.x) ^ 2 + (q.y - p.y) ^ 2) ≠ 0 := hD0
  have hDr' : Real.sqrt ((q.x - p.x) ^ 2 + (q.y - p.y) ^ 2) ≠ r := hDr
  have hpf' : ¬p.fixed = true := by simp [hpf]
  have hqf' : ¬q.fixed = true := by simp [hqf]
  have hq1 : ∀ a : PointMass, (([p, q] : List PointMass).set 0 a)[1]? = some q :=
    fun a => rfl
  have hsolve : PointMass.solve_constraints 0 [p, q] = solveStep 0 [p, q] ⟨1, r, k⟩ := by
    simp [PointMass.solve_constraints, hpc]
  have hstep : solveStep 0 [p, q] ⟨1, r, k⟩ =
      [{ p with
           x := p.x - (r - Real.sqrt ((q.x - p.x) ^ 2 + (q.y - p.y) ^ 2)) /
                  Real.sqrt ((q.x - p.x) ^ 2 + (q.y - p.y) ^ 2) * 0.5 * k * (q.x - p.x)
           y := p.y - (r - Real.sqrt ((q.x - p.x) ^ 2 + (q.y - p.y) ^ 2)) /
                  Real.sqrt ((q.x - p.x) ^ 2 + (q.y - p.y) ^ 2) * 0.5 * k * (q.y - p.y) },
       { q with
           x := q.x + (r - Real.sqrt ((q.x - p.x) ^ 2 + (q.y - p.y) ^ 2)) /
                  Real.sqrt ((q.x - p.x) ^ 2 + (q.y - p.y) ^ 2) * 0.5 * k * (q.x - p.x)
           y := q.y + (r - Real.sqrt ((q.x - p.x) ^ 2 + (q.y - p.y) ^ 2)) /
                  Real.sqrt ((q.x - p.x) ^ 2 + (q.y - p.y) ^ 2) * 0.5 * k * (q.y - p.y) }] := by
    rw [solveStep_eq hi ho]
    dsimp only
    rw [if_neg hD0', if_neg hpf', moveBy_eq (hq1 _), if_neg hqf']
    rfl
  obtain ⟨corr, hcorr⟩ : ∃ t : ℝ,
      t = (r - Real.sqrt ((q.x - p.x) ^ 2 + (q.y - p.y) ^ 2)) /
            Real.sqrt ((q.x - p.x) ^ 2 + (q.y - p.y) ^ 2) * 0.5 * k := ⟨_, rfl⟩
  rw [hsolve, hstep, ← hcorr]
  have hcore := relax_core (q.x - p.x) (q.y - p.y) r k corr hr hk0 hk1 hD0' hDr' hcorr
  refine ⟨_, _, rfl, rfl, ?_, ?_⟩
  · simp only [ptDist, List.getElem_cons_zero, List.getElem_cons_succ]
    rw [show q.x + corr * (q.x - p.x) - (p.x - corr * (q.x - p.x)) =
          (1 + 2 * corr) * (q.x - p.x) from by ring,
        show q.y + corr * (q.y - p.y) - (p.y - corr * (q.y - p.y)) =
          (1 + 2 * corr) * (q.y - p.y) from by ring]
    exact hcore.1
  · simp only [ptDist, List.getElem_cons_zero, List.getElem_cons_succ]
    rw [show q.x + corr * (q.x - p.x) - (p.x - corr * (q.x - p.x)) =
          (1 + 2 * corr) * (q.x - p.x) from by ring,
        show q.y + corr * (q.y - p.y) - (p.y - corr * (q.y - p.y)) =
          (1 + 2 * corr) * (q.y - p.y) from by ring]
    exact hcore.2

/-- Witness for C9: two free points at distance 4 with resting distance 1
and stiffness 1. -/
theorem C9_relaxation_convergence_witness :
    ptDist ⟨0, 0, 0, 0, false, [⟨1, 1, 1⟩]⟩ ⟨0, 4, 0, 4, false, []⟩ ≠ 0 ∧
    ptDist ⟨0, 0, 0, 0, false, [⟨1, 1, 1⟩]⟩ ⟨0, 4, 0, 4, false, []⟩ ≠ 1 ∧
    ∃ p' q',
      (PointMass.solve_constraints 0
        [⟨0, 0, 0, 0, false, [⟨1, 1, 1⟩]⟩, ⟨0, 4, 0, 4, false, []⟩])[0]? = some p' ∧
      (PointMass.solve_constraints 0
        [⟨0, 0, 0, 0, false, [⟨1, 1, 1⟩]⟩, ⟨0, 4, 0, 4, false, []⟩])[1]? = some q' ∧
      |ptDist p' q' - 1| =
        (1 - 1) * |ptDist ⟨0, 0, 0, 0, false, [⟨1, 1, 1⟩]⟩ ⟨0, 4, 0, 4, false, []⟩ - 1| ∧
      |ptDist p' q' - 1| <
        |ptDist ⟨0, 0, 0, 0, false, [⟨1, 1, 1⟩]⟩ ⟨0, 4, 0, 4, false, []⟩ - 1| := by
  have hPD : ptDist ⟨0, 0, 0, 0, false, [⟨1, 1, 1⟩]⟩ ⟨0, 4, 0, 4, false, []⟩ = 4 := by
    show Real.sqrt (((0 : ℝ) - 0) ^ 2 + ((4 : ℝ) - 0) ^ 2) = 4
    rw [show ((0 : ℝ) - 0) ^ 2 + ((4 : ℝ) - 0) ^ 2 = 4 ^ 2 by norm_num]
    exact Real.sqrt_sq (by norm_num)
  have hD0 : ptDist ⟨0, 0, 0, 0, false, [⟨1, 1, 1⟩]⟩ ⟨0, 4, 0, 4, false, []⟩ ≠ 0 := by
    rw [hPD]; norm_num
  have hDr : ptDist ⟨0, 0, 0, 0, false, [⟨1, 1, 1⟩]⟩ ⟨0, 4, 0, 4, false, []⟩ ≠ 1 := by
    rw [hPD]; norm_num
  exact ⟨hD0, hDr,
    C9_relaxation_convergence ⟨0, 0, 0, 0, false, [⟨1, 1, 1⟩]⟩ ⟨0, 4, 0, 4, false, []⟩
      1 1 rfl rfl rfl (by norm_num) (by norm_num) (by norm_num) hD0 hDr⟩

lemma createBody_eq (w : ℕ) (sy rd : ℝ) (y : ℕ) (pts : List PointMass) (x : ℕ) :
    createBody w sy rd y pts x = pts ++ [gridPoint w sy rd y x pts.length] := by
  unfold createBody
  by_cases hx : 0 < x <;> by_cases hy : 0 < y <;>
    simp [PointMass.init, PointMass.attach_to, gridPoint, hx, hy]

lemma inner_foldl (w : ℕ) (sy rd : ℝ) (y : ℕ) :
    ∀ (m : ℕ) (init : List PointMass),
      (List.range m).foldl (createBody w sy rd y) init =
        init ++ (List.range m).map (fun x => gridPoint w sy rd y x (init.length + x)) := by
  intro m
  induction m with
  | zero => intro init; simp
  | succ n ih =>
    intro init
    rw [List.range_succ, List.foldl_append, List.foldl_cons, List.foldl_nil, ih,
      createBody_eq, List.map_append]
    simp [List.length_append, List.length_map, List.length_range]

lemma gridRows_succ (w : ℕ) (sy rd : ℝ) (n : ℕ) :
    gridRows w sy rd (n + 1) =
      gridRows w sy rd n ++ (List.range (w + 1)).map
        (fun x => gridPoint w sy rd n x (n * (w + 1) + x)) := by
  simp [gridRows, List.range_succ]

lemma gridRows_length (w : ℕ) (sy rd : ℝ) : ∀ m, (gridRows w sy rd m).length = m * (w + 1) := by
  intro m
  induction m with
  | zero => simp [gridRows]
  | succ n ih =>
    rw [gridRows_succ, List.length_append, ih, List.length_map, List.length_range]
    ring

lemma create_eq_gridRows (w h : ℕ) (sy rd : ℝ) :
    Curtain.create_points w h sy rd = gridRows w sy rd (h + 1) := by
  unfold Curtain.create_points
  suffices H : ∀ m, (List.range m).foldl
      (fun pts y => (List.range (w + 1)).foldl (createBody w sy rd y) pts) [] =
      gridRows w sy rd m from H (h + 1)
  intro m
  induction m with
  | zero => simp [gridRows]
  | succ n ih =>
    rw [List.range_succ n, List.foldl_append, List.foldl_cons, List.foldl_nil, ih,
      inner_foldl, gridRows_succ, gridRows_length]

lemma gridRows_get (w : ℕ) (sy rd : ℝ) :
    ∀ (m row col : ℕ), row < m → col < w + 1 →
      (gridRows w sy rd m)[row * (w + 1) + col]? =
        some (gridPoint w sy rd row col (row * (w + 1) + col)) := by
  intro m
  induction m with
  | zero => intro row col hr hc; exact absurd hr (Nat.not_lt_zero _)
  | succ n ih =>
    intro row col hr hc
    rw [gridRows_succ]
    rcases Nat.lt_succ_iff_lt_or_eq.mp hr with hr' | rfl
    · have hb : row * (w + 1) + col < (gridRows w sy rd n).length := by
        rw [gridRows_length]
        have h1 : row * (w + 1) + col < (row + 1) * (w + 1) := by
          rw [Nat.succ_mul]
          exact Nat.add_lt_add_left hc _
        exact h1.trans_le (Nat.mul_le_mul_right _ hr')
      rw [List.getElem?_append_left hb]
      exact ih row col hr' hc
    · rw [List.getElem?_append_right
        (by rw [gridRows_length]; exact Nat.le_add_right _ _), gridRows_length,
        Nat.add_sub_cancel_left, List.getElem?_map, List.getElem?_range hc]
      rfl

/-- Claim C4: `create_points` makes exactly `(width+1)*(height+1)` points
in row-major order; the point at `(row, col)` sits at
`(col * restingDistance, startY + row * restingDistance)`, is fixed
exactly when `row = 0`, and carries a constraint to its left neighbour
when `col > 0` and one to the point directly above when `row > 0`, both
with the resting distance and the global stiffness constant (see
`gridPoint`). -/
theorem C4_grid_construction (width height : ℕ) (start_y resting_distance : ℝ) :
    (Curtain.create_points width height start_y resting_distance).length =
      (width + 1) * (height + 1) ∧
    ∀ row col : ℕ, row ≤ height → col ≤ width →
      (Curtain.create_points width height start_y resting_distance)[row * (width + 1) + col]? =
        some (gridPoint width start_y resting_distance row col (row * (width + 1) + col)) := by
  constructor
  · rw [create_eq_gridRows, gridRows_length, Nat.mul_comm]
  · intro row col hr hc
    rw [create_eq_gridRows]
    exact gridRows_get _ _ _ _ row col (Nat.lt_succ_of_le hr) (Nat.lt_succ_of_le hc)

/-- Witness for C4 on the 2×2-cell grid at row 1, column 1. -/
theorem C4_grid_construction_witness :
    (1 : ℕ) ≤ 1 ∧
    (Curtain.create_points 1 1 50 10)[3]? = some (gridPoint 1 50 10 1 1 3) :=
  ⟨le_refl 1, (C4_grid_construction 1 1 50 10).2 1 1 (le_refl 1) (le_refl 1)⟩

/-- Counterexample for C8: constructing the grid with zero grid dimensions
and resting distance 0 does not fail — `create_points` is total and
returns an ordinary one-point grid (a single fixed point at `(0, 50)` with
no constraints), with no error of any kind. -/
theorem C8_no_failfast_counterexample :
    Curtain.create_points 0 0 50 0 = [⟨0, 50, 0, 50, true, []⟩] := by
  rw [create_eq_gridRows]
  simp [gridRows, gridPoint, List.range_succ]

/-- Amended C8: grid construction performs no validation at all — with
resting distance 0 (and any dimensions) it silently returns the full
`(width+1)*(height+1)`-point grid in which every point sits at the single
coincident position `(0, start_y)`: degenerate geometry instead of a
configuration error. -/
theorem C8_silent_degenerate_geometry (width height : ℕ) (start_y : ℝ) :
    (Curtain.create_points width height start_y 0).length = (width + 1) * (height + 1) ∧
    ∀ pnt : PointMass, pnt ∈ Curtain.create_points width height start_y 0 →
      pnt.x = 0 ∧ pnt.y = start_y := by
  constructor
  · rw [create_eq_gridRows, gridRows_length, Nat.mul_comm]
  · intro pnt hmem
    rw [create_eq_gridRows] at hmem
    unfold gridRows at hmem
    rw [List.mem_flatMap] at hmem
    obtain ⟨y, hy, hmem2⟩ := hmem
    rw [List.mem_map] at hmem2
    obtain ⟨x, hx, rfl⟩ := hmem2
    constructor
    · show (x : ℝ) * 0 = 0
      simp
    · show start_y + (y : ℝ) * 0 = start_y
      simp

/-- Witness for the amended C8 at a concrete grid point. -/
theorem C8_silent_degenerate_geometry_witness :
    gridPoint 1 50 0 1 1 3 ∈ Curtain.create_points 1 1 50 0 ∧
    (gridPoint 1 50 0 1 1 3).x = 0 ∧ (gridPoint 1 50 0 1 1 3).y = 50 := by
  have hmem : gridPoint 1 50 0 1 1 3 ∈ Curtain.create_points 1 1 50 0 := by
    have h := gridRows_get 1 50 0 2 1 1 (by norm_num) (by norm_num)
    rw [← create_eq_gridRows] at h
    exact List.getElem?_mem h
  exact ⟨hmem, (C8_silent_degenerate_geometry 1 1 50).2 _ hmem⟩
